import Mathlib

/-!
Shallow embedding of the CDR_Link_Charter repository's graph-construction,
aggregation, filtering and layout logic.

Two applications live in the repository:
* `main.py` (+ `src/event_handlers.py`, `src/canvas_helpers.py`): the canvas
  visualizer, whose call store is a dict-of-dicts
  `call_data[phone1][phone2] -> list of record dicts`, each record stored once
  per direction.
* `linkchart.py`: the matplotlib chart app, which aggregates pandas rows into
  a networkx graph keyed by the lexicographically sorted phone pair.

Python dicts are insertion ordered; they are embedded as association lists
whose update operation (`aset`) replaces the value of an existing key in
place and appends a fresh key at the end, exactly like a dict assignment.
The nested `call_data` dict-of-dicts is flattened to an association list
keyed by the directed pair `(phone1, phone2)`.
-/

namespace CDRLink

/-- Association-list lookup: first entry whose key matches, like a Python
dict read (`d[k]`, `k in d`). -/
def alookup {K V : Type} [DecidableEq K] : List (K × V) → K → Option V
  | [], _ => none
  | (k, v) :: t, k' => if k = k' then some v else alookup t k'

/-- Association-list write, like a Python dict assignment `d[k] = v`:
replaces the value of an existing key in place, otherwise appends the new
key at the end (dicts are insertion ordered). -/
def aset {K V : Type} [DecidableEq K] : List (K × V) → K → V → List (K × V)
  | [], k', v' => [(k', v')]
  | (k, v) :: t, k', v' => if k = k' then (k', v') :: t else (k, v) :: aset t k' v'

theorem alookup_aset_self {K V : Type} [DecidableEq K] (l : List (K × V)) (k : K) (v : V) :
    alookup (aset l k v) k = some v := by
  induction l with
  | nil => simp [aset, alookup]
  | cons e t ih =>
      obtain ⟨k1, v1⟩ := e
      by_cases h : k1 = k
      · simp [aset, alookup, h]
      · simp [aset, alookup, h, ih]

theorem alookup_aset_ne {K V : Type} [DecidableEq K] (l : List (K × V)) {k k' : K}
    (h : k' ≠ k) (v : V) : alookup (aset l k v) k' = alookup l k' := by
  have hk : ¬ (k = k') := fun hh => h (Eq.symm hh)
  induction l with
  | nil => simp [aset, alookup, hk]
  | cons e t ih =>
      obtain ⟨k1, v1⟩ := e
      by_cases h1 : k1 = k
      · subst h1
        simp [aset, alookup, hk]
      · by_cases h2 : k1 = k'
        · simp [aset, alookup, h1, h2, h]
        · simp [aset, alookup, h1, h2, ih]

theorem alookup_filter_false {K V : Type} [DecidableEq K] (l : List (K × V))
    (f : K × V → Bool) (k : K) (h : ∀ v, f (k, v) = false) :
    alookup (l.filter f) k = none := by
  induction l with
  | nil => simp [alookup]
  | cons e t ih =>
      obtain ⟨k1, v1⟩ := e
      by_cases he : k1 = k
      · subst he
        simp [List.filter_cons, h v1, ih]
      · cases hf : f (k1, v1)
        · simp [List.filter_cons, hf, ih]
        · simp [List.filter_cons, hf, alookup, he, ih]

theorem alookup_filter_true {K V : Type} [DecidableEq K] (l : List (K × V))
    (f : K × V → Bool) (k : K) (h : ∀ v, f (k, v) = true) :
    alookup (l.filter f) k = alookup l k := by
  induction l with
  | nil => simp [alookup]
  | cons e t ih =>
      obtain ⟨k1, v1⟩ := e
      by_cases he : k1 = k
      · subst he
        simp [List.filter_cons, h v1, alookup, ih]
      · cases hf : f (k1, v1)
        · simp [List.filter_cons, hf, alookup, he, ih]
        · simp [List.filter_cons, hf, alookup, he, ih]

/-- One entry of a `call_data` record dict (`main.py` / `event_handlers.py`):
keys `date`, `start_time`, `end_time`, `duration`, `direction` and, for
manual-note pseudo-records, `note`.  A record that is not a manual note has
`note = ""`. -/
structure CallRecord where
  date : String
  startTime : String
  endTime : String
  duration : ℚ
  direction : String
  note : String
deriving DecidableEq

/-- `record.get('direction') == 'Manual Note'` — the tag that marks the
manual-note pseudo-records mixed into the record lists. -/
def isManualNote (r : CallRecord) : Bool := r.direction == "Manual Note"

/-- The list-comprehension predicate `r.get('direction') != 'Manual Note'`
used when clearing manual notes. -/
def notNote (r : CallRecord) : Bool := !(isManualNote r)

/-- The manual-note pseudo-record built in `complete_connection` and
`edit_connection_label`: zero duration, direction `'Manual Note'`, the
note text, and today's date. -/
def manualNoteRec (today text : String) : CallRecord :=
  { date := today, startTime := "", endTime := "", duration := 0,
    direction := "Manual Note", note := text }

/-- The flattened `call_data` dict-of-dicts: directed pair ↦ record list. -/
abbrev CallData := List ((String × String) × List CallRecord)

/-- `call_data[a][b]` presence-aware read. -/
def lookupCell (cd : CallData) (a b : String) : Option (List CallRecord) :=
  alookup cd (a, b)

/-- `call_data[a][b]` defaultdict-style read (missing cell reads as `[]`). -/
def cellD (cd : CallData) (a b : String) : List CallRecord :=
  (lookupCell cd a b).getD []

/-- `call_data[a][b] = v`. -/
def setCell (cd : CallData) (a b : String) (v : List CallRecord) : CallData :=
  aset cd (a, b) v

/-- `call_data[a][b].append(r)` on the defaultdict (creates the cell if
missing, then appends). -/
def appendRec (cd : CallData) (a b : String) (r : CallRecord) : CallData :=
  setCell cd a b (cellD cd a b ++ [r])

/-- The `if phone1 not in call_data: ... if phone2 not in call_data[phone1]:
call_data[phone1][phone2] = []` pattern of `complete_connection`. -/
def ensureCell (cd : CallData) (a b : String) : CallData :=
  if (lookupCell cd a b).isSome then cd else setCell cd a b []

/-- Per-phone display data of `src/models.py` `PhoneNode`: alias, logical
position, color index. -/
structure PhoneNodeData where
  aliasName : String
  x : ℚ
  y : ℚ
  color : Nat
deriving DecidableEq

/-- A freshly constructed `PhoneNode(number)`: empty alias, position (0,0),
color index 0. -/
def freshPhoneNode : PhoneNodeData :=
  { aliasName := "", x := 0, y := 0, color := 0 }

/-- The data-model state of `CDRVisualizerApp`: `phone_nodes` and the
flattened `call_data`. -/
structure AppState where
  phoneNodes : List (String × PhoneNodeData)
  callData : CallData
deriving DecidableEq

/-- `if target_number not in self.phone_nodes: self.phone_nodes[...] =
PhoneNode(...)`. -/
def addPhoneIfMissing (ns : List (String × PhoneNodeData)) (p : String) :
    List (String × PhoneNodeData) :=
  if (alookup ns p).isSome then ns else ns ++ [(p, freshPhoneNode)]

/-- One CSV row of the new format consumed by
`CDRVisualizerApp.import_cdr_csv` (already `.strip()`ped strings). -/
structure CsvRow where
  target : String
  direction : String
  fromTo : String
  date : String
  startS : String
  endS : String
deriving DecidableEq

/-- The per-row body of `CDRVisualizerApp.import_cdr_csv` (`main.py`
89–131).  `parse` models `datetime.strptime(f"{date} {time}", ...)`,
returning seconds (`none` = `ValueError`, row skipped).  Rows with any of
the five required fields empty are skipped.  The duration is
`(end_dt - start_dt).total_seconds()` — stored as computed, negative or
not.  Both phone nodes are created if missing and the record is appended
under both directed keys. -/
def importCdrRow (parse : String → String → Option Int) (st : AppState)
    (row : CsvRow) : AppState :=
  if row.target = "" ∨ row.fromTo = "" ∨ row.date = "" ∨ row.startS = "" ∨ row.endS = ""
  then st
  else
    match parse row.date row.startS, parse row.date row.endS with
    | some s, some e =>
        let dur : ℚ := ((e - s : Int) : ℚ)
        let r0 : CallRecord :=
          { date := row.date, startTime := row.startS, endTime := row.endS,
            duration := dur, direction := row.direction, note := "" }
        let ns := addPhoneIfMissing (addPhoneIfMissing st.phoneNodes row.target) row.fromTo
        { phoneNodes := ns,
          callData := appendRec (appendRec st.callData row.target row.fromTo r0)
                        row.fromTo row.target r0 }
    | _, _ => st

/-- Data-model effect of `EventHandlers.complete_connection`
(`event_handlers.py` 331–378): identical endpoints are cancelled (no
mutation); otherwise both directed cells are created if missing and, when
the dialog returned non-empty text (`if dialog.result:`), a manual-note
record is appended to both cells. -/
def completeConnection (st : AppState) (phone1 phone2 today : String)
    (dialogResult : Option String) : AppState :=
  if phone1 = phone2 then st
  else
    let cd := ensureCell (ensureCell st.callData phone1 phone2) phone2 phone1
    let cd :=
      match dialogResult with
      | some t =>
          if t = "" then cd
          else appendRec (appendRec cd phone1 phone2 (manualNoteRec today t))
                 phone2 phone1 (manualNoteRec today t)
      | none => cd
    { st with callData := cd }

/-- Data-model effect of `EventHandlers.edit_connection_label`
(`event_handlers.py` 411–462).  `dialogResult = none` is Cancel (no
change).  On OK, if the `(phone1, phone2)` cell exists, both directed
cells are rewritten with their manual-note records filtered out; then, if
the text is non-empty, a fresh manual-note record is appended to both
cells (creating them if needed). -/
def editConnectionLabel (cd : CallData) (phone1 phone2 today : String)
    (dialogResult : Option String) : CallData :=
  match dialogResult with
  | none => cd
  | some t =>
      let cd1 :=
        if (lookupCell cd phone1 phone2).isSome then
          let cdA := setCell cd phone1 phone2 ((cellD cd phone1 phone2).filter notNote)
          setCell cdA phone2 phone1 ((cellD cdA phone2 phone1).filter notNote)
        else cd
      if t = "" then cd1
      else appendRec (appendRec cd1 phone1 phone2 (manualNoteRec today t))
             phone2 phone1 (manualNoteRec today t)

/-- Data-model effect of `EventHandlers.delete_connection`
(`event_handlers.py` 464–497): both directed cells are deleted. -/
def deleteConnection (cd : CallData) (phone1 phone2 : String) : CallData :=
  cd.filter (fun e =>
    !(decide (e.1 = (phone1, phone2))) && !(decide (e.1 = (phone2, phone1))))

/-- Data-model effect of `CDRVisualizerApp.delete_phone` (`main.py`
201–264): the phone leaves `phone_nodes`, its `call_data` row is deleted,
and every other phone's cell referencing it is deleted. -/
def deletePhone (st : AppState) (p : String) : AppState :=
  { phoneNodes := st.phoneNodes.filter (fun e => !(decide (e.1 = p))),
    callData := st.callData.filter
      (fun e => !(decide (e.1.1 = p)) && !(decide (e.1.2 = p))) }

/-! ### Canvas-app edge statistics and label (`src/canvas_helpers.py`) -/

/-- Result of `CanvasHelpers._calculate_connection_stats`. -/
structure ConnStats where
  totalCalls : Nat
  avgDuration : ℚ
  dateRange : String × String
deriving DecidableEq

/-- `CanvasHelpers._calculate_connection_stats` (`canvas_helpers.py`
104–122): `total_calls = len(call_records)` over ALL records (manual
notes included), average of all `duration` fields, and the min/max of the
`date` strings. -/
def calculateConnectionStats (rs : List CallRecord) : Option ConnStats :=
  match rs with
  | [] => none
  | r :: rest =>
      let n : Nat := rest.length + 1
      let total : ℚ := ((r :: rest).map CallRecord.duration).sum
      let minD := rest.foldl (fun m x => min m x.date) r.date
      let maxD := rest.foldl (fun m x => max m x.date) r.date
      some { totalCalls := n, avgDuration := total / (n : ℚ), dateRange := (minD, maxD) }

/-- Python float modulo (sign of the divisor): `q % n = q - n * (q // n)`. -/
def pyMod (q n : ℚ) : ℚ := q - n * ((Int.floor (q / n) : Int) : ℚ)

/-- `CanvasHelpers._format_connection_label` (`canvas_helpers.py`
124–147): `f"{total_calls} calls\nAvg: {mins}m {secs}s\n{date_str}"`,
where the date range collapses to one day, a compact same-year form, or
`"min to max"`. -/
def formatConnectionLabel (stats : Option ConnStats) : String :=
  match stats with
  | none => ""
  | some s =>
      let avgMins : Int := Int.floor (s.avgDuration / 60)
      let avgSecs : Int := Int.floor (pyMod s.avgDuration 60)
      let dateStr :=
        if s.dateRange.1 = s.dateRange.2 then s.dateRange.1
        else
          let minParts := (s.dateRange.1.splitOn "-")
          let maxParts := (s.dateRange.2.splitOn "-")
          if minParts.getD 0 "" = maxParts.getD 0 "" then
            minParts.getD 1 "" ++ "/" ++ minParts.getD 2 "" ++ "-" ++
              maxParts.getD 1 "" ++ "/" ++ maxParts.getD 2 "" ++ "/" ++ maxParts.getD 0 ""
          else s.dateRange.1 ++ " to " ++ s.dateRange.2
      toString s.totalCalls ++ " calls\n" ++
        ("Avg: " ++ toString avgMins ++ "m " ++ toString avgSecs ++ "s" ++ "\n" ++ dateStr)

/-- Edge-statistics query of the canvas app: the records stored for the
directed cell, aggregated by `_calculate_connection_stats`; absent when
the cell is absent (or holds no records). -/
def getEdgeStats (cd : CallData) (a b : String) : Option ConnStats :=
  (lookupCell cd a b).bind calculateConnectionStats

/-! ### Linkchart aggregation (`linkchart.py`) -/

/-- A normalized pandas row after `normalize_csv_format`: `caller`,
`receiver`, parsed `timestamp`, optional `duration` (`NA` = `none`). -/
structure LCRow where
  caller : String
  receiver : String
  timestamp : Int
  duration : Option ℚ
deriving DecidableEq

/-- Python's `<` on characters: comparison of Unicode code points. -/
def charLtB (c d : Char) : Bool := Nat.blt c.toNat d.toNat

/-- Lexicographic comparison of character lists, as Python compares
strings. -/
def strLtAux : List Char → List Char → Bool
  | [], [] => false
  | [], _ :: _ => true
  | _ :: _, [] => false
  | c :: cs, d :: ds =>
      if charLtB c d then true else if charLtB d c then false else strLtAux cs ds

/-- Python's `<` on strings: lexicographic on code points. -/
def strLtB (a b : String) : Bool := strLtAux a.data b.data

/-- `tuple(sorted([a, b]))` — the canonical unordered pair key. -/
def sortPair (a b : String) : String × String :=
  if strLtB b a then (b, a) else (a, b)

/-- Duration of one new-format row in `process_new_format_optimized`
(`linkchart.py` 719–734): `(Date+End) − (Date+Start)` in seconds, with
negative values replaced by `NA` and unparsable endpoints giving `NA`. -/
def lcComputeDuration (startDT endDT : Option Int) : Option ℚ :=
  match startDT, endDT with
  | some s, some e =>
      let d : ℚ := ((e - s : Int) : ℚ)
      if d < 0 then none else some d
  | _, _ => none

/-- Per-directed-group statistics stored by `process_call_chunk`
(`linkchart.py` 833–877): group size, min/max timestamp, mean of the
non-missing durations (`none` when no durations). -/
structure LCEdgeStats where
  count : Nat
  firstCall : Int
  lastCall : Int
  avgDuration : Option ℚ
deriving DecidableEq

/-- The statistics `process_call_chunk` computes for one (nonempty)
directed `groupby` group. -/
def groupStats (g : List LCRow) : Option LCEdgeStats :=
  match g with
  | [] => none
  | r :: rest =>
      let durs := (r :: rest).filterMap LCRow.duration
      some { count := rest.length + 1,
             firstCall := rest.foldl (fun m x => min m x.timestamp) r.timestamp,
             lastCall := rest.foldl (fun m x => max m x.timestamp) r.timestamp,
             avgDuration := if durs.length = 0 then none
                            else some (durs.sum / (durs.length : ℚ)) }

/-- Ascending lexicographic order on directed pair keys — the order in
which `pandas.groupby(['caller', 'receiver'])` (default `sort=True`)
yields its group keys. -/
def pairLe (a b : String × String) : Prop :=
  strLtB a.1 b.1 = true ∨ (a.1 = b.1 ∧ strLtB b.2 a.2 = false)

instance : DecidableRel pairLe := fun a b =>
  inferInstanceAs (Decidable (strLtB a.1 b.1 = true ∨ (a.1 = b.1 ∧ strLtB b.2 a.2 = false)))

/-- First-occurrence deduplication of the directed keys appearing in the
row list. -/
def distinctKeys (ks : List (String × String)) : List (String × String) :=
  ks.foldl (fun acc k => if k ∈ acc then acc else acc ++ [k]) []

/-- `process_call_data_parallel` + `process_call_chunk` (`linkchart.py`
782–877), sequentialized: rows are grouped by the DIRECTED
`(caller, receiver)` key (keys in pandas' sorted order), each group's
statistics are computed, and each result is stored into the accumulating
`call_stats` dict under the sorted pair key `tuple(sorted([caller,
receiver]))` — a later directed group with the same sorted key
OVERWRITES the earlier one (`result[edge_key] = ...` /
`call_stats.update(result)`). -/
def processCallStats (rows : List LCRow) : List ((String × String) × LCEdgeStats) :=
  let keys := List.insertionSort pairLe
    (distinctKeys (rows.map (fun r => (r.caller, r.receiver))))
  keys.foldl (fun acc k =>
    match groupStats (rows.filter
        (fun r => decide (r.caller = k.1) && decide (r.receiver = k.2))) with
    | some s => aset acc (sortPair k.1 k.2) s
    | none => acc) []

/-! ### Linkchart filter worker (`_worker_apply_filters`, `linkchart.py`
898–986) -/

/-- The `call_details` tally of `_worker_apply_filters`: one pass over the
(already date/time-filtered) rows, counting records per sorted pair key,
keys in first-occurrence (dict insertion) order. -/
def callTallies (rows : List LCRow) : List ((String × String) × Nat) :=
  rows.foldl (fun acc r =>
    let k := sortPair r.caller r.receiver
    aset acc k ((alookup acc k).getD 0 + 1)) []

/-- `filtered_edges = {k: len(v['dates']) for k, v in call_details.items()
if len(v['dates']) >= min_calls}`. -/
def filteredEdges (rows : List LCRow) (minCalls : Nat) :
    List ((String × String) × Nat) :=
  (callTallies rows).filter (fun e => decide (minCalls ≤ e.2))

/-- One edge's contribution to `phone_activity`:
`phone_activity[p1] += count; phone_activity[p2] += count`. -/
def activityStep (acc : List (String × Nat)) (e : (String × String) × Nat) :
    List (String × Nat) :=
  let acc1 := aset acc e.1.1 ((alookup acc e.1.1).getD 0 + e.2)
  aset acc1 e.1.2 ((alookup acc1 e.1.2).getD 0 + e.2)

/-- `phone_activity`: total incident call count per phone, accumulated by
iterating the surviving edges in order, keys in first-occurrence order. -/
def phoneActivity (edges : List ((String × String) × Nat)) : List (String × Nat) :=
  edges.foldl activityStep []

/-- The comparison realized by `sorted(phone_activity,
key=phone_activity.get, reverse=True)`: Python's sort is stable, so this
is exactly a stable sort under "activity of the left is at least the
activity of the right". -/
def activityGe (a b : String × Nat) : Prop := b.2 ≤ a.2

instance : DecidableRel activityGe := fun a b =>
  inferInstanceAs (Decidable (b.2 ≤ a.2))

instance : IsTotal (String × Nat) activityGe :=
  ⟨fun a b => Or.symm (Nat.le_total a.2 b.2)⟩

instance : IsTrans (String × Nat) activityGe :=
  ⟨fun _ _ _ h1 h2 => Nat.le_trans h2 h1⟩

/-- `top_phones = set(sorted(phone_activity, key=phone_activity.get,
reverse=True)[:max_nodes])` — the first `maxNodes` phones of the stable
descending sort. -/
def topPhonesList (act : List (String × Nat)) (maxNodes : Nat) : List String :=
  ((List.insertionSort activityGe act).take maxNodes).map Prod.fst

/-- The node-cap stage of `_worker_apply_filters` (`linkchart.py`
954–966): when more phones survive than `max_nodes`, keep the top
`max_nodes` by activity and drop any edge with an endpoint outside the
kept set. -/
def applyNodeCap (edges : List ((String × String) × Nat)) (maxNodes : Nat) :
    List String × List ((String × String) × Nat) :=
  let act := phoneActivity edges
  if maxNodes < act.length then
    let top := topPhonesList act maxNodes
    (top, edges.filter (fun e => decide (e.1.1 ∈ top) && decide (e.1.2 ∈ top)))
  else (act.map Prod.fst, edges)

/-- Modelled from the spec's words (§4.5 step 4), for comparison with
`applyNodeCap`: rank nodes by total incident call count descending with
ties broken by node identifier ascending, keep the top `maxNodes`. -/
def specRank (a b : String × Nat) : Prop :=
  b.2 < a.2 ∨ (a.2 = b.2 ∧ strLtB b.1 a.1 = false)

instance : DecidableRel specRank := fun a b =>
  inferInstanceAs (Decidable (b.2 < a.2 ∨ (a.2 = b.2 ∧ strLtB b.1 a.1 = false)))

/-- Modelled from the spec's words (§4.5 step 4): the kept node list under
the spec's ranking (activity descending, identifier ascending on ties). -/
def specTopPhones (act : List (String × Nat)) (maxNodes : Nat) : List String :=
  ((List.insertionSort specRank act).take maxNodes).map Prod.fst

/-! ### Linkchart layout, zoom and pan -/

/-- The position/view state of `EnhancedPhoneLinkChartApp`: `zoom_factor`,
`pan_offset` and the single position store `self.pos` (node ↦ 2D
coordinate). -/
structure LCViewState where
  zoomFactor : ℚ
  panOffset : ℚ × ℚ
  pos : List (String × (ℚ × ℚ))
deriving DecidableEq

/-- `reset_layout` (`linkchart.py` 1355–1367): zoom back to 1, pan to
(0,0), and `self.pos` replaced wholesale by a fresh spring layout of the
filtered graph (`springPos`), for every node. -/
def resetLayout (springPos : List (String × (ℚ × ℚ))) (_v : LCViewState) :
    LCViewState :=
  { zoomFactor := 1, panOffset := (0, 0), pos := springPos }

/-- `_check_filter_results` (`linkchart.py` 988–1004): when a worker
result arrives it calls `reset_layout`, recomputing every node's
position. -/
def checkFilterResults (springPos : List (String × (ℚ × ℚ)))
    (v : LCViewState) : LCViewState :=
  resetLayout springPos v

/-- `apply_zoom_pan` (`linkchart.py` 1300–1310): rewrites `self.pos` in
place, `pos[node] = pos[node] * zoom_factor + pan_offset`. -/
def applyZoomPan (zoomFactor : ℚ) (panOffset : ℚ × ℚ)
    (pos : List (String × (ℚ × ℚ))) : List (String × (ℚ × ℚ)) :=
  pos.map (fun e =>
    (e.1, (e.2.1 * zoomFactor + panOffset.1, e.2.2 * zoomFactor + panOffset.2)))

/-! ### Canvas-app zoom (`event_handlers.py` / `canvas_helpers.py`) -/

/-- The canvas app's zoom-relevant data state: `EventHandlers.last_zoom`
plus the logical phone store `phone_nodes`. -/
structure CanvasZoomState where
  lastZoom : ℚ
  phoneNodes : List (String × PhoneNodeData)
deriving DecidableEq

/-- Data-model effect of `EventHandlers.on_zoom` (`event_handlers.py`
25–48): zoom changes below 0.01 are ignored; otherwise only `last_zoom`
is updated (the canvas rescaling is display-side; `phone_nodes` logical
coordinates are untouched). -/
def onZoom (st : CanvasZoomState) (z : ℚ) : CanvasZoomState :=
  if |z - st.lastZoom| < 1 / 100 then st else { st with lastZoom := z }

/-- `CanvasHelpers.draw_connection` endpoint coordinates
(`canvas_helpers.py` 149–156): `x1, y1 = p1.x * zoom, p1.y * zoom` —
computed at render time from the logical position. -/
def drawConnectionCoords (p : PhoneNodeData) (zoom : ℚ) : ℚ × ℚ :=
  (p.x * zoom, p.y * zoom)

/-! ### Concrete inputs used by the claim theorems -/

/-- Two normalized rows for the same unordered pair, one per direction. -/
def c1rows : List LCRow :=
  [{ caller := "5550001", receiver := "5550002", timestamp := 1, duration := none },
   { caller := "5550002", receiver := "5550001", timestamp := 2, duration := none }]

/-- Four phones of equal activity; `"B"` and `"C"` appear in the edge
iteration before `"A"` and `"D"`. -/
def fEC : List ((String × String) × Nat) :=
  [(("B", "C"), 1), (("A", "D"), 1)]

/-- A concrete `datetime.strptime` model: two parsable times of day. -/
def parseTimes : String → String → Option Int := fun _ t =>
  if t = "09:00:00" then some 32400 else if t = "09:00:05" then some 32405 else none

/-- The empty canvas-app state. -/
def st0 : AppState := { phoneNodes := [], callData := [] }

/-- A CSV row whose two parties are the same phone. -/
def selfRow : CsvRow :=
  { target := "5551234", direction := "Outbound", fromTo := "5551234",
    date := "2024-01-05", startS := "09:00:00", endS := "09:00:05" }

/-- The record `import_cdr_csv` builds for `selfRow`. -/
def selfCallRec : CallRecord :=
  { date := "2024-01-05", startTime := "09:00:00", endTime := "09:00:05",
    duration := 5, direction := "Outbound", note := "" }

/-- A CSV row whose `End` time parses earlier than its `Start` time. -/
def negRow : CsvRow :=
  { target := "A", direction := "Inbound", fromTo := "B",
    date := "2024-01-05", startS := "09:00:05", endS := "09:00:00" }

/-- A manual-note pseudo-record dated 2024-01-05. -/
def noteRec0105 : CallRecord := manualNoteRec "2024-01-05" "meet"

/-- An ordinary one-minute inbound call on 2024-01-05. -/
def callRec0105 : CallRecord :=
  { date := "2024-01-05", startTime := "09:00:00", endTime := "09:01:00",
    duration := 60, direction := "Inbound", note := "" }

/-- A canvas-app state holding phone `"A"` and two edges, one incident to
`"A"` and one not. -/
def stW : AppState :=
  { phoneNodes := [("A", freshPhoneNode), ("B", freshPhoneNode), ("C", freshPhoneNode)],
    callData := [(("A", "B"), [callRec0105]), (("B", "A"), [callRec0105]),
                 (("B", "C"), [callRec0105]), (("C", "B"), [callRec0105])] }

/-! ### Claim theorems -/

/-- C1: the spec claims the per-pair call count equals the total number of
records in both directions combined.  The chunked aggregation
(`process_call_chunk`) computes statistics per DIRECTED group and stores
them under the sorted pair key, so the second direction's group
overwrites the first: for one A→B row and one B→A row the stored count is
1, while the filter worker (`_worker_apply_filters`, same file) counts
the combined 2 for the very same rows.  The sorted-pair key shows merging
was intended; the overwrite is a slip. -/
theorem c1_chunk_aggregation_drops_reverse_direction :
    alookup (processCallStats c1rows) ("5550001", "5550002") =
      some { count := 1, firstCall := 2, lastCall := 2, avgDuration := none }
    ∧ alookup (callTallies c1rows) ("5550001", "5550002") = some 2
    ∧ (1 : Nat) ≠ 2 :=
  ⟨by rfl, by rfl, by decide⟩

/-- C2 counterexample: the claim says a pair whose two parties are equal
is never stored, but `import_cdr_csv` has no self-loop check: importing a
row whose target equals its counterpart stores the record — twice, since
both directed appends hit the same cell. -/
theorem c2_counterexample :
    lookupCell (importCdrRow parseTimes st0 selfRow).callData "5551234" "5551234" =
      some [selfCallRec, selfCallRec]
    ∧ ([selfCallRec, selfCallRec] : List CallRecord) ≠ [] :=
  ⟨by rfl, by simp⟩

/-- C2 (amended): no `SelfLoopError` exists anywhere.  Completing a manual
connection between a phone and itself is silently cancelled with no state
change, while the CSV import path stores a self-call row (appending the
record twice to the `(A, A)` cell). -/
theorem c2_self_loop_handling :
    (∀ (st : AppState) (a today : String) (res : Option String),
        completeConnection st a a today res = st)
    ∧ lookupCell (importCdrRow parseTimes st0 selfRow).callData "5551234" "5551234" =
        some [selfCallRec, selfCallRec] := by
  refine ⟨fun st a today res => ?_, by rfl⟩
  simp [completeConnection]

/-- C3 counterexample: `_calculate_connection_stats` sets `total_calls =
len(call_records)`, counting manual notes, and `_format_connection_label`
always renders the count: a manual note plus one call yields count 2 (the
claim says 1), and a note-only pair renders the label `"1 calls..."`
rather than an absent call-count component. -/
theorem c3_counterexample :
    (calculateConnectionStats [noteRec0105, callRec0105]).map ConnStats.totalCalls = some 2
    ∧ ([noteRec0105, callRec0105].filter notNote).length = 1
    ∧ (2 : Nat) ≠ 1
    ∧ formatConnectionLabel (calculateConnectionStats [noteRec0105]) =
        "1 calls\nAvg: 0m 0s\n2024-01-05" := by
  refine ⟨by rfl, by decide, by decide, ?_⟩
  norm_num [formatConnectionLabel, calculateConnectionStats, noteRec0105, manualNoteRec, pyMod]
  rfl

/-- C3 (amended): the edge's call count is the number of ALL records of
the pair, manual notes included, and every nonempty record list renders a
label that begins with that total followed by `" calls"`. -/
theorem c3_call_count_includes_notes (rs : List CallRecord) (h : rs ≠ []) :
    (calculateConnectionStats rs).map ConnStats.totalCalls = some rs.length
    ∧ ∃ rest, formatConnectionLabel (calculateConnectionStats rs) =
        toString rs.length ++ " calls\n" ++ rest := by
  match rs, h with
  | r :: rest, _ =>
    exact ⟨by simp [calculateConnectionStats], _, rfl⟩

/-- C3 witness: the amended theorem applied to the note-only record
list. -/
theorem c3_call_count_includes_notes_witness :
    (calculateConnectionStats [noteRec0105]).map ConnStats.totalCalls =
      some [noteRec0105].length
    ∧ ∃ rest, formatConnectionLabel (calculateConnectionStats [noteRec0105]) =
        toString ([noteRec0105] : List CallRecord).length ++ " calls\n" ++ rest :=
  c3_call_count_includes_notes [noteRec0105] (by decide)

/-- C7 counterexample: the claim says every duration stored in the
graph's records is non-negative, but `import_cdr_csv` stores
`(end_dt - start_dt).total_seconds()` unchecked: a row whose end precedes
its start is stored with duration −5. -/
theorem c7_counterexample :
    (cellD (importCdrRow parseTimes st0 negRow).callData "A" "B").map CallRecord.duration =
      [(-5 : ℚ)]
    ∧ ¬ (0 : ℚ) ≤ (-5 : ℚ) :=
  ⟨by rfl, by norm_num⟩

/-- C7 (amended): the linkchart ingestion (`process_new_format_optimized`)
replaces negative computed durations by missing, so every duration it
retains is non-negative; the canvas app's `import_cdr_csv`, however,
stores the negative computed value as-is. -/
theorem c7_negative_duration_paths (s e : Option Int) (d : ℚ)
    (h : lcComputeDuration s e = some d) :
    0 ≤ d
    ∧ (cellD (importCdrRow parseTimes st0 negRow).callData "A" "B").map CallRecord.duration =
        [(-5 : ℚ)] := by
  refine ⟨?_, by rfl⟩
  rcases s with _ | sv <;> rcases e with _ | ev
  · exact absurd h (by simp [lcComputeDuration])
  · exact absurd h (by simp [lcComputeDuration])
  · exact absurd h (by simp [lcComputeDuration])
  · have heq : lcComputeDuration (some sv) (some ev) =
        if ((ev - sv : Int) : ℚ) < 0 then none else some ((ev - sv : Int) : ℚ) := rfl
    rw [heq] at h
    by_cases hd : ((ev - sv : Int) : ℚ) < 0
    · rw [if_pos hd] at h
      exact absurd h (by simp)
    · rw [if_neg hd] at h
      rw [← Option.some.inj h]
      exact not_lt.mp hd

/-- C7 witness: a one-second linkchart duration. -/
theorem c7_negative_duration_paths_witness :
    0 ≤ (5 : ℚ)
    ∧ (cellD (importCdrRow parseTimes st0 negRow).callData "A" "B").map CallRecord.duration =
        [(-5 : ℚ)] :=
  c7_negative_duration_paths (some 0) (some 5) 5 (by decide)

/-- C8: a node manually placed at (100, 200) loses that position as soon
as a filter result arrives: `_check_filter_results` calls `reset_layout`,
which replaces `self.pos` wholesale with a fresh seeded spring layout for
every node, contradicting the specified contract that manually positioned
nodes keep their coordinates across filter changes. -/
theorem c8_filter_result_discards_manual_position :
    alookup (checkFilterResults [("5550001", ((0 : ℚ), (0 : ℚ)))]
        { zoomFactor := 1, panOffset := (0, 0),
          pos := [("5550001", (100, 200))] }).pos "5550001" = some (0, 0)
    ∧ (((0 : ℚ), (0 : ℚ))) ≠ (((100 : ℚ), (200 : ℚ))) :=
  ⟨by rfl, by norm_num [Prod.ext_iff]⟩

/-- C9 counterexample: the claim says applying the zoom/pan transform
leaves the stored logical coordinates unchanged, but `apply_zoom_pan`
rewrites `self.pos` — the only position store — in place. -/
theorem c9_counterexample :
    applyZoomPan 2 (3, 4) [("A", ((1 : ℚ), (2 : ℚ)))] = [("A", (5, 8))]
    ∧ ([("A", ((5 : ℚ), (8 : ℚ)))]) ≠ [("A", ((1 : ℚ), (2 : ℚ)))] := by
  constructor
  · norm_num [applyZoomPan]
  · simp only [ne_eq, List.cons.injEq, Prod.mk.injEq, and_true]
    norm_num

/-- Association-list lookup commutes with mapping over the values. -/
theorem alookup_map_values {K V W : Type} [DecidableEq K] (f : V → W)
    (l : List (K × V)) (k : K) :
    alookup (l.map (fun e => (e.1, f e.2))) k = (alookup l k).map f := by
  induction l with
  | nil => simp [alookup]
  | cons e t ih =>
      obtain ⟨k1, v1⟩ := e
      by_cases h : k1 = k
      · simp [alookup, h]
      · simp [alookup, h, ih]

/-- C9 (amended): the rendered position is `logical * zoom + pan`,
computed at render time, and the transform is reversible for any nonzero
zoom; in the canvas app the zoom handler never touches the logical phone
coordinates.  In the linkchart app, however, `apply_zoom_pan` applies the
transform by overwriting the position store itself (the store is
recomputed from the seeded layout before each application, so no
compounding occurs). -/
theorem c9_zoom_pan_transform (z : ℚ) (o : ℚ × ℚ) (h : z ≠ 0) :
    (∀ (pos : List (String × (ℚ × ℚ))) (n : String) (p : ℚ × ℚ),
        alookup pos n = some p →
          alookup (applyZoomPan z o pos) n = some (p.1 * z + o.1, p.2 * z + o.2))
    ∧ (∀ p : ℚ × ℚ, ((p.1 * z + o.1 - o.1) / z, (p.2 * z + o.2 - o.2) / z) = p)
    ∧ (∀ (st : CanvasZoomState) (zv : ℚ), (onZoom st zv).phoneNodes = st.phoneNodes)
    ∧ (∀ (p : PhoneNodeData) (zoom : ℚ),
        drawConnectionCoords p zoom = (p.x * zoom, p.y * zoom)) := by
  refine ⟨?_, ?_, ?_, fun p zoom => rfl⟩
  · intro pos n p hp
    unfold applyZoomPan
    rw [alookup_map_values (fun q : ℚ × ℚ => (q.1 * z + o.1, q.2 * z + o.2)) pos n, hp]
    rfl
  · intro p
    have h1 : (p.1 * z + o.1 - o.1) / z = p.1 := by
      rw [add_sub_cancel_right, mul_div_cancel_right₀ _ h]
    have h2 : (p.2 * z + o.2 - o.2) / z = p.2 := by
      rw [add_sub_cancel_right, mul_div_cancel_right₀ _ h]
    rw [h1, h2]
  · intro st zv
    unfold onZoom
    split <;> rfl

/-! ### Cell-level helper lemmas -/

theorem lookupCell_setCell_self (cd : CallData) (a b : String) (v : List CallRecord) :
    lookupCell (setCell cd a b v) a b = some v :=
  alookup_aset_self cd (a, b) v

theorem lookupCell_setCell_ne (cd : CallData) {a b a' b' : String}
    (h : (a', b') ≠ (a, b)) (v : List CallRecord) :
    lookupCell (setCell cd a b v) a' b' = lookupCell cd a' b' :=
  alookup_aset_ne cd h v

theorem cellD_setCell_self (cd : CallData) (a b : String) (v : List CallRecord) :
    cellD (setCell cd a b v) a b = v := by
  simp [cellD, lookupCell_setCell_self]

theorem cellD_setCell_ne (cd : CallData) {a b a' b' : String}
    (h : (a', b') ≠ (a, b)) (v : List CallRecord) :
    cellD (setCell cd a b v) a' b' = cellD cd a' b' := by
  simp [cellD, lookupCell_setCell_ne cd h]

theorem cellD_appendRec_self (cd : CallData) (a b : String) (r : CallRecord) :
    cellD (appendRec cd a b r) a b = cellD cd a b ++ [r] := by
  simp [appendRec, cellD_setCell_self]

theorem cellD_appendRec_ne (cd : CallData) {a b a' b' : String}
    (h : (a', b') ≠ (a, b)) (r : CallRecord) :
    cellD (appendRec cd a b r) a' b' = cellD cd a' b' := by
  simp [appendRec, cellD_setCell_ne cd h]

theorem lookupCell_appendRec_isSome (cd : CallData) (a b : String) (r : CallRecord) :
    (lookupCell (appendRec cd a b r) a b).isSome = true := by
  simp [appendRec, lookupCell_setCell_self]

/-- Swapping both components preserves pair distinctness. -/
theorem pair_ne_swap {x y a b : String} (h : (x, y) ≠ (a, b)) : (y, x) ≠ (b, a) := by
  intro hc
  obtain ⟨h1, h2⟩ := Prod.mk.injEq .. ▸ hc
  exact h (by rw [Prod.mk.injEq] at hc ⊢; exact ⟨hc.2, hc.1⟩)

/-- A manual-note record never survives the clearing filter. -/
theorem notNote_manualNoteRec (t s : String) : notNote (manualNoteRec t s) = false := by
  simp [notNote, isManualNote, manualNoteRec]

theorem filter_notNote_append_note (l : List CallRecord) (t s : String) :
    (l ++ [manualNoteRec t s]).filter notNote = l.filter notNote := by
  simp [List.filter_append, notNote_manualNoteRec]

theorem filter_notNote_idem (l : List CallRecord) :
    (l.filter notNote).filter notNote = l.filter notNote := by
  induction l with
  | nil => rfl
  | cons r t ih =>
      cases h : notNote r <;> simp [List.filter_cons, h, ih]

theorem filter_isManualNote_of_notNote (l : List CallRecord) :
    (l.filter notNote).filter isManualNote = [] := by
  induction l with
  | nil => rfl
  | cons r t ih =>
      cases h : isManualNote r <;> simp [List.filter_cons, h, notNote, ih]

/-- Clearing step: when the `(p1, p2)` cell exists, an OK with empty text
rewrites both directed cells to their call-only contents. -/
theorem edit_clear_cells (cd : CallData) (p1 p2 t : String)
    (hS : (lookupCell cd p1 p2).isSome = true) :
    cellD (editConnectionLabel cd p1 p2 t (some "")) p1 p2 =
      (cellD cd p1 p2).filter notNote
    ∧ cellD (editConnectionLabel cd p1 p2 t (some "")) p2 p1 =
      (cellD cd p2 p1).filter notNote := by
  have hres : editConnectionLabel cd p1 p2 t (some "") =
      setCell (setCell cd p1 p2 ((cellD cd p1 p2).filter notNote)) p2 p1
        ((cellD (setCell cd p1 p2 ((cellD cd p1 p2).filter notNote)) p2 p1).filter notNote) := by
    simp [editConnectionLabel, hS]
  by_cases hp : p1 = p2
  · subst hp
    rw [hres, cellD_setCell_self, cellD_setCell_self]
    exact ⟨filter_notNote_idem _, filter_notNote_idem _⟩
  · have hq : (p2, p1) ≠ (p1, p2) := fun hc => hp (congrArg Prod.snd hc)
    have hq' : (p1, p2) ≠ (p2, p1) := fun hc => hp (congrArg Prod.fst hc)
    rw [hres, cellD_setCell_self, cellD_setCell_ne _ hq', cellD_setCell_self,
      cellD_setCell_ne _ hq]
    exact ⟨rfl, rfl⟩

/-- Adding step: an OK with non-empty text leaves the `(p1, p2)` cell
present, and the call-only contents of both directed cells unchanged. -/
theorem edit_add_cells (cd : CallData) (p1 p2 t x : String) (hx : x ≠ "") :
    (lookupCell (editConnectionLabel cd p1 p2 t (some x)) p1 p2).isSome = true
    ∧ (cellD (editConnectionLabel cd p1 p2 t (some x)) p1 p2).filter notNote =
        (cellD cd p1 p2).filter notNote
    ∧ (cellD (editConnectionLabel cd p1 p2 t (some x)) p2 p1).filter notNote =
        (cellD cd p2 p1).filter notNote := by
  have hres : editConnectionLabel cd p1 p2 t (some x) =
      appendRec (appendRec (if (lookupCell cd p1 p2).isSome then
          setCell (setCell cd p1 p2 ((cellD cd p1 p2).filter notNote)) p2 p1
            ((cellD (setCell cd p1 p2 ((cellD cd p1 p2).filter notNote)) p2 p1).filter notNote)
        else cd) p1 p2 (manualNoteRec t x)) p2 p1 (manualNoteRec t x) := by
    simp [editConnectionLabel, hx]
  set cd1 := (if (lookupCell cd p1 p2).isSome then
      setCell (setCell cd p1 p2 ((cellD cd p1 p2).filter notNote)) p2 p1
        ((cellD (setCell cd p1 p2 ((cellD cd p1 p2).filter notNote)) p2 p1).filter notNote)
    else cd) with hcd1
  have hfil12 : (cellD cd1 p1 p2).filter notNote = (cellD cd p1 p2).filter notNote := by
    rw [hcd1]
    by_cases hS : (lookupCell cd p1 p2).isSome
    · rw [if_pos hS]
      by_cases hp : p1 = p2
      · subst hp
        rw [cellD_setCell_self, cellD_setCell_self, filter_notNote_idem,
          filter_notNote_idem]
      · have hq' : (p1, p2) ≠ (p2, p1) := fun hc => hp (congrArg Prod.fst hc)
        rw [cellD_setCell_ne _ hq', cellD_setCell_self, filter_notNote_idem]
    · rw [if_neg hS]
  have hfil21 : (cellD cd1 p2 p1).filter notNote = (cellD cd p2 p1).filter notNote := by
    rw [hcd1]
    by_cases hS : (lookupCell cd p1 p2).isSome
    · rw [if_pos hS]
      by_cases hp : p1 = p2
      · subst hp
        rw [cellD_setCell_self, cellD_setCell_self, filter_notNote_idem,
          filter_notNote_idem]
      · have hq : (p2, p1) ≠ (p1, p2) := fun hc => hp (congrArg Prod.snd hc)
        rw [cellD_setCell_self, cellD_setCell_ne _ hq, filter_notNote_idem]
    · rw [if_neg hS]
  by_cases hp : p1 = p2
  · subst hp
    rw [hres]
    refine ⟨lookupCell_appendRec_isSome _ _ _ _, ?_, ?_⟩ <;>
      rw [cellD_appendRec_self, cellD_appendRec_self,
        filter_notNote_append_note, filter_notNote_append_note] <;>
      exact hfil12
  · have hq : (p2, p1) ≠ (p1, p2) := fun hc => hp (congrArg Prod.snd hc)
    have hq' : (p1, p2) ≠ (p2, p1) := fun hc => hp (congrArg Prod.fst hc)
    rw [hres]
    refine ⟨?_, ?_, ?_⟩
    · rw [show appendRec (appendRec cd1 p1 p2 (manualNoteRec t x)) p2 p1 (manualNoteRec t x) =
          setCell (appendRec cd1 p1 p2 (manualNoteRec t x)) p2 p1
            (cellD (appendRec cd1 p1 p2 (manualNoteRec t x)) p2 p1 ++ [manualNoteRec t x])
          from rfl]
      rw [lookupCell, setCell]
      rw [alookup_aset_ne _ hq']
      exact lookupCell_appendRec_isSome _ _ _ _
    · rw [cellD_appendRec_ne _ hq', cellD_appendRec_self, filter_notNote_append_note]
      exact hfil12
    · rw [cellD_appendRec_self, cellD_appendRec_ne _ hq, filter_notNote_append_note]
      exact hfil21

/-- C4: after `edit_connection_label` stores a non-empty note and a second
edit clears it (OK on empty text), the pair holds no manual-note record
while every previously stored call record of the pair is preserved (both
directed cells reduce to exactly their call-only contents). -/
theorem c4_manual_note_toggle (cd : CallData) (p1 p2 t1 t2 x : String) (hx : x ≠ "") :
    cellD (editConnectionLabel (editConnectionLabel cd p1 p2 t1 (some x)) p1 p2 t2
        (some "")) p1 p2 = (cellD cd p1 p2).filter notNote
    ∧ cellD (editConnectionLabel (editConnectionLabel cd p1 p2 t1 (some x)) p1 p2 t2
        (some "")) p2 p1 = (cellD cd p2 p1).filter notNote
    ∧ (cellD (editConnectionLabel (editConnectionLabel cd p1 p2 t1 (some x)) p1 p2 t2
        (some "")) p1 p2).filter isManualNote = [] := by
  obtain ⟨hS, h12, h21⟩ := edit_add_cells cd p1 p2 t1 x hx
  obtain ⟨g12, g21⟩ := edit_clear_cells (editConnectionLabel cd p1 p2 t1 (some x)) p1 p2 t2 hS
  refine ⟨?_, ?_, ?_⟩
  · rw [g12, h12]
  · rw [g21, h21]
  · rw [g12, h12, filter_isManualNote_of_notNote]

/-- C4 witness: toggling a note on a pair that already holds one call and
one stale note. -/
theorem c4_manual_note_toggle_witness :
    cellD (editConnectionLabel (editConnectionLabel
        [(("A", "B"), [callRec0105, noteRec0105])] "A" "B" "2024-01-06" (some "x"))
        "A" "B" "2024-01-07" (some "")) "A" "B" =
      (cellD [(("A", "B"), [callRec0105, noteRec0105])] "A" "B").filter notNote
    ∧ cellD (editConnectionLabel (editConnectionLabel
        [(("A", "B"), [callRec0105, noteRec0105])] "A" "B" "2024-01-06" (some "x"))
        "A" "B" "2024-01-07" (some "")) "B" "A" =
      (cellD [(("A", "B"), [callRec0105, noteRec0105])] "B" "A").filter notNote
    ∧ (cellD (editConnectionLabel (editConnectionLabel
        [(("A", "B"), [callRec0105, noteRec0105])] "A" "B" "2024-01-06" (some "x"))
        "A" "B" "2024-01-07" (some "")) "A" "B").filter isManualNote = [] :=
  c4_manual_note_toggle [(("A", "B"), [callRec0105, noteRec0105])] "A" "B"
    "2024-01-06" "2024-01-07" "x" (by decide)

/-! ### Deletion lemmas shared by C5 and C10 -/

theorem deletePhone_lookup_none (st : AppState) (p b : String) :
    lookupCell (deletePhone st p).callData p b = none
    ∧ lookupCell (deletePhone st p).callData b p = none := by
  constructor
  · apply alookup_filter_false
    intro v
    simp
  · apply alookup_filter_false
    intro v
    simp

theorem deletePhone_lookup_other (st : AppState) {b c p : String}
    (hb : b ≠ p) (hc : c ≠ p) :
    lookupCell (deletePhone st p).callData b c = lookupCell st.callData b c := by
  apply alookup_filter_true
  intro v
  simp [hb, hc]

theorem deleteConnection_lookup_none (cd : CallData) (p1 p2 : String) :
    lookupCell (deleteConnection cd p1 p2) p1 p2 = none
    ∧ lookupCell (deleteConnection cd p1 p2) p2 p1 = none := by
  constructor
  · apply alookup_filter_false
    intro v
    simp
  · apply alookup_filter_false
    intro v
    simp

theorem deleteConnection_lookup_other (cd : CallData) {x y p1 p2 : String}
    (h1 : (x, y) ≠ (p1, p2)) (h2 : (x, y) ≠ (p2, p1)) :
    lookupCell (deleteConnection cd p1 p2) x y = lookupCell cd x y := by
  apply alookup_filter_true
  intro v
  simp [h1, h2]

/-- C5: deleting a phone that is present removes it from the node store,
removes every directed `call_data` entry touching it (so edge-statistics
queries for any pair containing it come back absent), and leaves every
cell between two other phones untouched. -/
theorem c5_delete_phone_cascades (st : AppState) (a : String)
    (h : a ∈ st.phoneNodes.map Prod.fst) :
    a ∉ (deletePhone st a).phoneNodes.map Prod.fst
    ∧ (∀ b, lookupCell (deletePhone st a).callData a b = none)
    ∧ (∀ b, lookupCell (deletePhone st a).callData b a = none)
    ∧ (∀ b, getEdgeStats (deletePhone st a).callData a b = none
          ∧ getEdgeStats (deletePhone st a).callData b a = none)
    ∧ (∀ b c, b ≠ a → c ≠ a →
        lookupCell (deletePhone st a).callData b c = lookupCell st.callData b c) := by
  refine ⟨?_, fun b => (deletePhone_lookup_none st a b).1,
    fun b => (deletePhone_lookup_none st a b).2, ?_, ?_⟩
  · intro hmem
    rw [List.mem_map] at hmem
    obtain ⟨e, he, hfst⟩ := hmem
    rw [deletePhone] at he
    rw [List.mem_filter] at he
    have := he.2
    simp [hfst] at this
  · intro b
    constructor
    · simp [getEdgeStats, (deletePhone_lookup_none st a b).1]
    · simp [getEdgeStats, (deletePhone_lookup_none st a b).2]
  · intro b c hb hc
    exact deletePhone_lookup_other st hb hc

/-- C5 witness: deleting phone `"A"` from a three-phone state with one
edge incident to `"A"` and one not. -/
theorem c5_delete_phone_cascades_witness :
    "A" ∉ (deletePhone stW "A").phoneNodes.map Prod.fst
    ∧ (∀ b, lookupCell (deletePhone stW "A").callData "A" b = none)
    ∧ (∀ b, lookupCell (deletePhone stW "A").callData b "A" = none)
    ∧ (∀ b, getEdgeStats (deletePhone stW "A").callData "A" b = none
          ∧ getEdgeStats (deletePhone stW "A").callData b "A" = none)
    ∧ (∀ b c, b ≠ "A" → c ≠ "A" →
        lookupCell (deletePhone stW "A").callData b c = lookupCell stW.callData b c) :=
  c5_delete_phone_cascades stW "A" (by decide)

/-! ### Bidirectional-store symmetry (C10) -/

/-- The invariant implicitly maintained by the canvas app: every record
list is stored under both directed keys identically. -/
def Symm (cd : CallData) : Prop :=
  ∀ a b : String, lookupCell cd a b = lookupCell cd b a

theorem symm_setCell_diag {cd : CallData} (h : Symm cd) (a : String)
    (v : List CallRecord) : Symm (setCell cd a a v) := by
  intro x y
  by_cases h1 : (x, y) = (a, a)
  · have hx : x = a := congrArg Prod.fst h1
    have hy : y = a := congrArg Prod.snd h1
    subst hx; subst hy
    rfl
  · have h2 : (y, x) ≠ (a, a) := by
      intro hc
      apply h1
      have hy : y = a := congrArg Prod.fst hc
      have hx : x = a := congrArg Prod.snd hc
      rw [hx, hy]
    simp only [lookupCell, setCell]
    rw [alookup_aset_ne _ h1, alookup_aset_ne _ h2]
    exact h x y

theorem symm_setCell_pair {cd : CallData} (h : Symm cd) (a b : String)
    (v : List CallRecord) : Symm (setCell (setCell cd a b v) b a v) := by
  by_cases hab : a = b
  · subst hab
    exact symm_setCell_diag (symm_setCell_diag h a v) a v
  · have hne1 : ((a : String), b) ≠ (b, a) := fun hc => hab (congrArg Prod.fst hc)
    have hne2 : ((b : String), a) ≠ (a, b) := fun hc => hab (congrArg Prod.snd hc)
    intro x y
    simp only [lookupCell, setCell]
    by_cases h1 : (x, y) = (a, b)
    · have h1' : (y, x) = (b, a) := by
        rw [show y = b from congrArg Prod.snd h1, show x = a from congrArg Prod.fst h1]
      rw [h1, h1', alookup_aset_ne _ hne1, alookup_aset_self, alookup_aset_self]
    · by_cases h2 : (x, y) = (b, a)
      · have h2' : (y, x) = (a, b) := by
          rw [show y = a from congrArg Prod.snd h2, show x = b from congrArg Prod.fst h2]
        rw [h2, h2', alookup_aset_self, alookup_aset_ne _ hne1, alookup_aset_self]
      · have h3 : (y, x) ≠ (b, a) := pair_ne_swap h1
        have h4 : (y, x) ≠ (a, b) := pair_ne_swap h2
        rw [alookup_aset_ne _ h2, alookup_aset_ne _ h1,
          alookup_aset_ne _ h3, alookup_aset_ne _ h4]
        exact h x y

theorem symm_appendRec_pair {cd : CallData} (h : Symm cd) (a b : String)
    (r : CallRecord) : Symm (appendRec (appendRec cd a b r) b a r) := by
  by_cases hab : a = b
  · subst hab
    exact symm_setCell_diag (symm_setCell_diag h a _) a _
  · have e1 : cellD (appendRec cd a b r) b a = cellD cd b a :=
      cellD_appendRec_ne cd (fun hc => hab (congrArg Prod.snd hc)) r
    have e2 : cellD cd b a = cellD cd a b := by
      simp only [cellD]
      rw [h b a]
    show Symm (setCell (appendRec cd a b r) b a (cellD (appendRec cd a b r) b a ++ [r]))
    rw [e1, e2]
    exact symm_setCell_pair h a b _

theorem symm_ensureCell_pair {cd : CallData} (h : Symm cd) (a b : String) :
    Symm (ensureCell (ensureCell cd a b) b a) := by
  by_cases hS : (lookupCell cd a b).isSome = true
  · have hS' : (lookupCell cd b a).isSome = true := by rw [← h a b]; exact hS
    have e1 : ensureCell cd a b = cd := by simp [ensureCell, hS]
    have e2 : ensureCell cd b a = cd := by simp [ensureCell, hS']
    rw [e1, e2]
    exact h
  · have e1 : ensureCell cd a b = setCell cd a b [] := by simp [ensureCell, hS]
    rw [e1]
    by_cases hab : a = b
    · subst hab
      have hS2 : (lookupCell (setCell cd a a []) a a).isSome = true := by
        rw [lookupCell_setCell_self]
        rfl
      have e2 : ensureCell (setCell cd a a []) a a = setCell cd a a [] := by
        simp [ensureCell, hS2]
      rw [e2]
      exact symm_setCell_diag h a []
    · have hS2 : ¬ (lookupCell (setCell cd a b []) b a).isSome = true := by
        rw [lookupCell_setCell_ne _ (fun hc => hab (congrArg Prod.snd hc)), ← h a b]
        exact hS
      have e2 : ensureCell (setCell cd a b []) b a =
          setCell (setCell cd a b []) b a [] := by
        simp [ensureCell, hS2]
      rw [e2]
      exact symm_setCell_pair h a b []

theorem symm_importCdrRow (parse : String → String → Option Int) {st : AppState}
    (h : Symm st.callData) (row : CsvRow) :
    Symm (importCdrRow parse st row).callData := by
  unfold importCdrRow
  split
  · exact h
  · rcases hps : parse row.date row.startS with _ | sv <;>
      rcases hpe : parse row.date row.endS with _ | ev <;>
      simp only [hps, hpe]
    · exact h
    · exact h
    · exact h
    · exact symm_appendRec_pair h _ _ _

theorem symm_completeConnection {st : AppState} (h : Symm st.callData)
    (p1 p2 today : String) (res : Option String) :
    Symm (completeConnection st p1 p2 today res).callData := by
  unfold completeConnection
  split
  · exact h
  · cases res with
    | none => exact symm_ensureCell_pair h p1 p2
    | some t =>
        by_cases ht : t = ""
        · simp only [ht, if_pos rfl]
          exact symm_ensureCell_pair h p1 p2
        · simp only [if_neg ht]
          exact symm_appendRec_pair (symm_ensureCell_pair h p1 p2) p1 p2 _

theorem symm_editConnectionLabel {cd : CallData} (h : Symm cd)
    (p1 p2 today : String) (res : Option String) :
    Symm (editConnectionLabel cd p1 p2 today res) := by
  cases res with
  | none => exact h
  | some t =>
      have hcd1 : Symm (if (lookupCell cd p1 p2).isSome then
          setCell (setCell cd p1 p2 ((cellD cd p1 p2).filter notNote)) p2 p1
            ((cellD (setCell cd p1 p2 ((cellD cd p1 p2).filter notNote)) p2 p1).filter notNote)
        else cd) := by
        by_cases hS : (lookupCell cd p1 p2).isSome = true
        · rw [if_pos hS]
          by_cases hp : p1 = p2
          · subst hp
            exact symm_setCell_diag (symm_setCell_diag h p1 _) p1 _
          · have e1 : cellD (setCell cd p1 p2 ((cellD cd p1 p2).filter notNote)) p2 p1 =
                cellD cd p2 p1 :=
              cellD_setCell_ne cd (fun hc => hp (congrArg Prod.snd hc)) _
            have e2 : cellD cd p2 p1 = cellD cd p1 p2 := by
              simp only [cellD]
              rw [h p2 p1]
            rw [e1, e2]
            exact symm_setCell_pair h p1 p2 _
        · rw [if_neg hS]
          exact h
      by_cases ht : t = ""
      · have hres : editConnectionLabel cd p1 p2 today (some t) =
            (if (lookupCell cd p1 p2).isSome then
              setCell (setCell cd p1 p2 ((cellD cd p1 p2).filter notNote)) p2 p1
                ((cellD (setCell cd p1 p2 ((cellD cd p1 p2).filter notNote)) p2 p1).filter notNote)
            else cd) := by
          simp [editConnectionLabel, ht]
        rw [hres]
        exact hcd1
      · have hres : editConnectionLabel cd p1 p2 today (some t) =
            appendRec (appendRec (if (lookupCell cd p1 p2).isSome then
              setCell (setCell cd p1 p2 ((cellD cd p1 p2).filter notNote)) p2 p1
                ((cellD (setCell cd p1 p2 ((cellD cd p1 p2).filter notNote)) p2 p1).filter notNote)
            else cd) p1 p2 (manualNoteRec today t)) p2 p1 (manualNoteRec today t) := by
          simp [editConnectionLabel, ht]
        rw [hres]
        exact symm_appendRec_pair hcd1 p1 p2 _

theorem symm_deleteConnection {cd : CallData} (h : Symm cd) (p1 p2 : String) :
    Symm (deleteConnection cd p1 p2) := by
  intro x y
  by_cases h1 : (x, y) = (p1, p2)
  · have hx : x = p1 := congrArg Prod.fst h1
    have hy : y = p2 := congrArg Prod.snd h1
    subst hx; subst hy
    rw [(deleteConnection_lookup_none cd x y).1, (deleteConnection_lookup_none cd x y).2]
  · by_cases h2 : (x, y) = (p2, p1)
    · have hx : x = p2 := congrArg Prod.fst h2
      have hy : y = p1 := congrArg Prod.snd h2
      subst hx; subst hy
      rw [(deleteConnection_lookup_none cd y x).2, (deleteConnection_lookup_none cd y x).1]
    · rw [deleteConnection_lookup_other cd h1 h2,
        deleteConnection_lookup_other cd (pair_ne_swap h2) (pair_ne_swap h1)]
      exact h x y

theorem symm_deletePhone {st : AppState} (h : Symm st.callData) (p : String) :
    Symm (deletePhone st p).callData := by
  intro x y
  by_cases hx : x = p
  · subst hx
    rw [(deletePhone_lookup_none st x y).1, (deletePhone_lookup_none st x y).2]
  · by_cases hy : y = p
    · subst hy
      rw [(deletePhone_lookup_none st y x).2, (deletePhone_lookup_none st y x).1]
    · rw [deletePhone_lookup_other st hx hy, deletePhone_lookup_other st hy hx]
      exact h x y

/-- C10: every mutating operation of the canvas app (CSV row import,
manual connection completion, note edit/clear, connection delete, phone
delete) preserves the invariant that the record list stored under
`(a, b)` equals the one stored under `(b, a)`, and the two delete
operations leave no dangling directed entry. -/
theorem c10_bidirectional_store_invariant (parse : String → String → Option Int)
    (st : AppState) (row : CsvRow) (p1 p2 today : String) (res : Option String)
    (h : Symm st.callData) :
    Symm (importCdrRow parse st row).callData
    ∧ Symm (completeConnection st p1 p2 today res).callData
    ∧ Symm (editConnectionLabel st.callData p1 p2 today res)
    ∧ Symm (deleteConnection st.callData p1 p2)
    ∧ Symm (deletePhone st p1).callData
    ∧ lookupCell (deleteConnection st.callData p1 p2) p1 p2 = none
    ∧ lookupCell (deleteConnection st.callData p1 p2) p2 p1 = none
    ∧ (∀ b, lookupCell (deletePhone st p1).callData p1 b = none
          ∧ lookupCell (deletePhone st p1).callData b p1 = none) :=
  ⟨symm_importCdrRow parse h row, symm_completeConnection h p1 p2 today res,
    symm_editConnectionLabel h p1 p2 today res, symm_deleteConnection h p1 p2,
    symm_deletePhone h p1, (deleteConnection_lookup_none st.callData p1 p2).1,
    (deleteConnection_lookup_none st.callData p1 p2).2,
    fun b => deletePhone_lookup_none st p1 b⟩

/-- C10 witness: all five operations applied from the empty state. -/
theorem c10_bidirectional_store_invariant_witness :
    Symm (importCdrRow parseTimes st0 selfRow).callData
    ∧ Symm (completeConnection st0 "A" "B" "2024-01-05" (some "hi")).callData
    ∧ Symm (editConnectionLabel st0.callData "A" "B" "2024-01-05" (some "hi"))
    ∧ Symm (deleteConnection st0.callData "A" "B")
    ∧ Symm (deletePhone st0 "A").callData
    ∧ lookupCell (deleteConnection st0.callData "A" "B") "A" "B" = none
    ∧ lookupCell (deleteConnection st0.callData "A" "B") "B" "A" = none
    ∧ (∀ b, lookupCell (deletePhone st0 "A").callData "A" b = none
          ∧ lookupCell (deletePhone st0 "A").callData b "A" = none) :=
  c10_bidirectional_store_invariant parseTimes st0 selfRow "A" "B" "2024-01-05"
    (some "hi") (fun a b => rfl)

/-! ### Node-cap lemmas (C6) -/

theorem keys_aset {K V : Type} [DecidableEq K] (l : List (K × V)) (k : K) (v : V) :
    (aset l k v).map Prod.fst =
      if k ∈ l.map Prod.fst then l.map Prod.fst else l.map Prod.fst ++ [k] := by
  induction l with
  | nil => simp [aset]
  | cons e t ih =>
      obtain ⟨k1, v1⟩ := e
      by_cases h : k1 = k
      · subst h
        simp [aset]
      · have h' : ¬ k = k1 := fun hh => h hh.symm
        by_cases h2 : k ∈ t.map Prod.fst
        · simp [aset, h, ih, h2, h']
        · simp [aset, h, ih, h2, h']

theorem keys_nodup_aset {K V : Type} [DecidableEq K] {l : List (K × V)}
    (h : (l.map Prod.fst).Nodup) (k : K) (v : V) :
    ((aset l k v).map Prod.fst).Nodup := by
  rw [keys_aset]
  by_cases hmem : k ∈ l.map Prod.fst
  · rw [if_pos hmem]
    exact h
  · rw [if_neg hmem]
    refine List.Nodup.append h (List.nodup_singleton k) ?_
    intro x hx hk
    rw [List.mem_singleton] at hk
    subst hk
    exact hmem hx

theorem activityStep_keys_nodup {acc : List (String × Nat)}
    (h : (acc.map Prod.fst).Nodup) (e : (String × String) × Nat) :
    ((activityStep acc e).map Prod.fst).Nodup :=
  keys_nodup_aset (keys_nodup_aset h _ _) _ _

theorem phoneActivity_keys_nodup (edges : List ((String × String) × Nat)) :
    ((phoneActivity edges).map Prod.fst).Nodup := by
  suffices H : ∀ acc : List (String × Nat), (acc.map Prod.fst).Nodup →
      ((edges.foldl activityStep acc).map Prod.fst).Nodup by
    exact H [] (by simp)
  induction edges with
  | nil => exact fun acc h => h
  | cons e t ih =>
      intro acc h
      rw [List.foldl_cons]
      exact ih _ (activityStep_keys_nodup h e)

/-- C6 counterexample: with four phones of equal activity and
`maxNodes = 2`, the implementation keeps the first-inserted phones
`["B", "C"]` (Python's stable sort preserves dict insertion order on
ties), while the spec's ranking — ties broken by identifier ascending —
keeps `["A", "B"]`. -/
theorem c6_counterexample :
    (applyNodeCap fEC 2).1 = ["B", "C"]
    ∧ specTopPhones (phoneActivity fEC) 2 = ["A", "B"]
    ∧ (["B", "C"] : List String) ≠ ["A", "B"] := by
  refine ⟨by rfl, by rfl, by decide⟩

/-- C6 (amended): when the surviving phones exceed `maxNodes`, the kept
list has exactly `maxNodes` phones, every kept phone's total incident
count is at least every dropped phone's, the kept edges are exactly the
surviving edges with both endpoints kept — but ties are broken by the
first-appearance order of the phone in the edge iteration (stable sort
over dict insertion order), not by identifier ascending, as the concrete
tie case shows.  The result is a pure function of the input order, hence
deterministic across runs. -/
theorem c6_node_cap_ranking (edges : List ((String × String) × Nat)) (m : Nat)
    (h : m < (phoneActivity edges).length) :
    (applyNodeCap edges m).1.length = m
    ∧ (∀ e1 ∈ phoneActivity edges, ∀ e2 ∈ phoneActivity edges,
        e1.1 ∈ (applyNodeCap edges m).1 → e2.1 ∉ (applyNodeCap edges m).1 →
          e2.2 ≤ e1.2)
    ∧ (∀ e ∈ (applyNodeCap edges m).2,
        e ∈ edges ∧ e.1.1 ∈ (applyNodeCap edges m).1 ∧ e.1.2 ∈ (applyNodeCap edges m).1)
    ∧ applyNodeCap fEC 2 = (["B", "C"], [(("B", "C"), 1)]) := by
  have hcap : applyNodeCap edges m =
      (topPhonesList (phoneActivity edges) m,
        edges.filter (fun e => decide (e.1.1 ∈ topPhonesList (phoneActivity edges) m) &&
          decide (e.1.2 ∈ topPhonesList (phoneActivity edges) m))) := by
    simp [applyNodeCap, h]
  have hlen : (List.insertionSort activityGe (phoneActivity edges)).length =
      (phoneActivity edges).length :=
    (List.perm_insertionSort activityGe (phoneActivity edges)).length_eq
  refine ⟨?_, ?_, ?_, by rfl⟩
  · rw [hcap]
    simp only [topPhonesList, List.length_map, List.length_take]
    omega
  · intro e1 he1 e2 he2 htop hnot
    rw [hcap] at htop hnot
    simp only [topPhonesList] at htop hnot
    have hsorted : List.Sorted activityGe
        (List.insertionSort activityGe (phoneActivity edges)) :=
      List.sorted_insertionSort activityGe (phoneActivity edges)
    have hsplit : List.insertionSort activityGe (phoneActivity edges) =
        (List.insertionSort activityGe (phoneActivity edges)).take m ++
          (List.insertionSort activityGe (phoneActivity edges)).drop m :=
      (List.take_append_drop m _).symm
    have hnodup : ((List.insertionSort activityGe (phoneActivity edges)).map Prod.fst).Nodup := by
      have hperm := (List.perm_insertionSort activityGe (phoneActivity edges)).map Prod.fst
      exact hperm.nodup_iff.mpr (phoneActivity_keys_nodup edges)
    have he1s : e1 ∈ List.insertionSort activityGe (phoneActivity edges) :=
      (List.perm_insertionSort activityGe (phoneActivity edges)).mem_iff.mpr he1
    have he2s : e2 ∈ List.insertionSort activityGe (phoneActivity edges) :=
      (List.perm_insertionSort activityGe (phoneActivity edges)).mem_iff.mpr he2
    have he1t : e1 ∈ (List.insertionSort activityGe (phoneActivity edges)).take m := by
      rcases List.mem_append.mp (hsplit ▸ he1s) with htake | hdrop
      · exact htake
      · exfalso
        obtain ⟨e', he', hfst⟩ := List.mem_map.mp htop
        have hnd := hnodup
        rw [hsplit, List.map_append] at hnd
        have hdisj := (List.nodup_append.mp hnd).2.2
        exact hdisj (hfst ▸ List.mem_map_of_mem Prod.fst he')
          (List.mem_map_of_mem Prod.fst hdrop)
    have he2d : e2 ∈ (List.insertionSort activityGe (phoneActivity edges)).drop m := by
      rcases List.mem_append.mp (hsplit ▸ he2s) with htake | hdrop
      · exact absurd (List.mem_map_of_mem Prod.fst htake) hnot
      · exact hdrop
    have hpw := hsorted
    rw [List.Sorted, hsplit, List.pairwise_append] at hpw
    exact hpw.2.2 e1 he1t e2 he2d
  · intro e he
    rw [hcap] at he ⊢
    rw [List.mem_filter] at he
    refine ⟨he.1, ?_, ?_⟩
    · have := he.2
      simp only [Bool.and_eq_true, decide_eq_true_eq] at this
      exact this.1
    · have := he.2
      simp only [Bool.and_eq_true, decide_eq_true_eq] at this
      exact this.2

/-- C6 witness: the amended theorem at the concrete tie-break input. -/
theorem c6_node_cap_ranking_witness :
    (applyNodeCap fEC 2).1.length = 2
    ∧ (∀ e1 ∈ phoneActivity fEC, ∀ e2 ∈ phoneActivity fEC,
        e1.1 ∈ (applyNodeCap fEC 2).1 → e2.1 ∉ (applyNodeCap fEC 2).1 →
          e2.2 ≤ e1.2)
    ∧ (∀ e ∈ (applyNodeCap fEC 2).2,
        e ∈ fEC ∧ e.1.1 ∈ (applyNodeCap fEC 2).1 ∧ e.1.2 ∈ (applyNodeCap fEC 2).1)
    ∧ applyNodeCap fEC 2 = (["B", "C"], [(("B", "C"), 1)]) :=
  c6_node_cap_ranking fEC 2 (by decide)

/-- C9 witness: the amended theorem at zoom 2, pan (3, 4). -/
theorem c9_zoom_pan_transform_witness :
    (∀ (pos : List (String × (ℚ × ℚ))) (n : String) (p : ℚ × ℚ),
        alookup pos n = some p →
          alookup (applyZoomPan 2 (3, 4) pos) n = some (p.1 * 2 + 3, p.2 * 2 + 4))
    ∧ (∀ p : ℚ × ℚ, ((p.1 * 2 + 3 - 3) / 2, (p.2 * 2 + 4 - 4) / 2) = p)
    ∧ (∀ (st : CanvasZoomState) (zv : ℚ), (onZoom st zv).phoneNodes = st.phoneNodes)
    ∧ (∀ (p : PhoneNodeData) (zoom : ℚ),
        drawConnectionCoords p zoom = (p.x * zoom, p.y * zoom)) :=
  c9_zoom_pan_transform 2 (3, 4) (by norm_num)

end CDRLink
